import Mathlib

/-!
Verification of the Go package `check`
(`kvm-xfstests/test-appliance/files/usr/local/lib/gce-server/util/check/check.go`).

The package wraps external-command execution, file I/O and error logging.
We shallowly embed its functions over explicit models of the pieces of the
operating-system state they touch:

* the file system is a map from paths to nodes (regular file with string
  content, or directory); `os.Stat` is modelled by `Stat`;
* a subprocess invocation is summarised by an `ExecResult` (failure to
  start, or an exit code together with the captured output streams);
* the logrus logger is modelled by the list of entries written, each
  carrying its severity level.

Strings stand for byte slices; we work at character granularity, which is
faithful for the byte-level properties at stake (content equality,
splitting on the newline character, concatenation).
-/

namespace Check

/-! ## File-system model -/

/-- A node of the file system: a regular file with its content, or a
directory.  (Other node kinds are irrelevant to this package.) -/
inductive Node where
  | file (content : String)
  | dir
deriving DecidableEq

/-- A file system: a partial map from paths to nodes. -/
def FS : Type := String → Option Node

/-- The part of `os.FileInfo` the code consults: `IsDir()`. -/
structure FileInfo where
  isDir : Bool
deriving DecidableEq

/-- Model of `os.Stat`: `none` is any stat error (in particular
"does not exist"), `some info` a successful stat. -/
def Stat (fs : FS) (path : String) : Option FileInfo :=
  match fs path with
  | some (.file _) => some ⟨false⟩
  | some .dir => some ⟨true⟩
  | none => none

/-- Point update of a file system, used to model writes. -/
def updateFS (fs : FS) (path : String) (node : Node) : FS :=
  fun p => if p = path then some node else fs p

/-- Embedding of `FileExists`: `info, err := os.Stat(filename)`;
`if err == nil && !info.IsDir() { return true }; return false`. -/
def FileExists (fs : FS) (filename : String) : Bool :=
  match Stat fs filename with
  | some info => !info.isDir
  | none => false

/-- Embedding of `DirExists`: `info, err := os.Stat(filename)`;
`if err == nil && info.IsDir() { return true }; return false`. -/
def DirExists (fs : FS) (filename : String) : Bool :=
  match Stat fs filename with
  | some info => info.isDir
  | none => false

/-- Model of `ioutil.ReadFile`: succeeds with the content on a regular
file, errors on a missing path or a directory. -/
def ReadFile (fs : FS) (filename : String) : Except Unit String :=
  match fs filename with
  | some (.file c) => .ok c
  | _ => .error ()

/-- Character-level splitting on `'\n'`, the embedding of
`strings.Split(content, "\n")`: `acc` accumulates the current field in
reverse.  `strings.Split` yields the fields between consecutive
separators, so `""` gives `[""]` and a trailing newline yields a
trailing `""`. -/
def splitNlChars : List Char → List Char → List String
  | [], acc => [⟨acc.reverse⟩]
  | c :: cs, acc =>
    if c = '\n' then ⟨acc.reverse⟩ :: splitNlChars cs []
    else splitNlChars cs (c :: acc)

/-- Embedding of `strings.Split(content, "\n")`. -/
def splitLines (content : String) : List String :=
  splitNlChars content.data []

/-- The in-place filtering loop of `ReadLines`:
`nonEmptyLines := lines[:0]; for i, line := range lines {
  if line != "" { nonEmptyLines = append(nonEmptyLines, lines[i:i+1]...) } }`.
`nonEmptyLines` aliases the backing array of `lines`, so an append is a
write into that very array at index `n` (the current length of
`nonEmptyLines`); the state is the array plus `n`.  The first argument
is fuel bounding the remaining iterations, so that the recursion is
structural; the loop exits through its guard `i < lines.length`, and
every use supplies fuel `lines.length`, which stays sufficient because
`i` increases by one per iteration and `set` preserves the length. -/
def filterLoop : Nat → List String → Nat → Nat → List String × Nat
  | 0, lines, _, n => (lines, n)
  | fuel + 1, lines, i, n =>
    if h : i < lines.length then
      let line := lines.get ⟨i, h⟩
      if line ≠ "" then
        filterLoop fuel (lines.set n line) (i + 1) (n + 1)
      else
        filterLoop fuel lines (i + 1) n
    else
      (lines, n)

/-- Embedding of `ReadLines`: read the whole file, split on `"\n"`
(`strings.Split`), drop empty strings with the in-place loop, and return
the initial segment of length `n` of the (mutated) array. -/
def ReadLines (fs : FS) (filename : String) : Except Unit (List String) :=
  match ReadFile fs filename with
  | .error e => .error e
  | .ok content =>
    let lines := splitLines content
    let r := filterLoop lines.length lines 0 0
    .ok (r.1.take r.2)

/-- The naive specification of the filtering step of `ReadLines`: keep,
in order, the non-empty strings of the newline-split list. -/
def naiveFilterSpec (lines : List String) : List String :=
  lines.filter (fun l => l ≠ "")

/-- Behaviour of `CopyFile dst src`.  `os.Open(src)` must yield a readable regular
file.  `os.OpenFile(dst, os.O_CREATE|os.O_WRONLY, 0644)` creates `dst`
empty when absent and otherwise opens the EXISTING content — the flags do
not include `O_TRUNC`, so `io.Copy` writes the source bytes from offset 0
over the old ones and any old bytes past the end of the source survive. -/
def writeFrom0 (old new : String) : String :=
  new ++ old.drop new.length

/-- Model of `CopyFile(dst, src)` on a file system. -/
def CopyFile (fs : FS) (dst : String) (src : String) : Except Unit FS :=
  match fs src with
  | some (.file srcContent) =>
    match fs dst with
    | some .dir => .error ()
    | some (.file old) => .ok (updateFS fs dst (.file (writeFrom0 old srcContent)))
    | none => .ok (updateFS fs dst (.file srcContent))
  | _ => .error ()

/-! ## Logging model (logrus) -/

/-- The logrus severity levels this package can emit.  In logrus,
`Panic` is a distinct level, strictly more severe than `Fatal`, which in
turn is more severe than `Error`. -/
inductive Level where
  | panicLevel
  | fatalLevel
  | errorLevel
deriving DecidableEq

/-- One log entry: severity, message, and the text of the attached error
(`WithError`). -/
structure LogEntry where
  level : Level
  msg : String
  errText : String
deriving DecidableEq

/-- Whether a call returns normally or aborts the control flow by
panicking. -/
inductive Outcome where
  | returned
  | panicked
deriving DecidableEq

/-- Embedding of `Panic(err, log, msg)`: default the empty message, and when `err`
is non-nil call `log.WithError(err).Panic(msg)`, which writes one entry
at panic level and then panics.  Errors are modelled by
`Option String` (`none` = nil, `some e` = an error whose `Error()` text
is `e`).  The result is the control-flow outcome together with the
entries written. -/
def Panic (err : Option String) (msg : String) : Outcome × List LogEntry :=
  let msg := if msg = "" then "Something bad happended" else msg
  match err with
  | some e => (.panicked, [⟨.panicLevel, msg, e⟩])
  | none => (.returned, [])

/-- Embedding of `NoError(err, log, msg)`: default the empty message; when `err` is
non-nil write one entry at error level and return `false`, otherwise
return `true`.  The result is the returned boolean together with the
entries written. -/
def NoError (err : Option String) (msg : String) : Bool × List LogEntry :=
  let msg := if msg = "" then "Something bad happended" else msg
  match err with
  | some e => (false, [⟨.errorLevel, msg, e⟩])
  | none => (true, [])

/-! ## Command execution model -/

/-- The fields of `exec.Cmd` this package assigns before running. -/
structure Cmd where
  dir : Option String
  env : Option (List String)

/-- The behaviour of one subprocess invocation: it either fails to
start, or runs to an exit code with captured stdout and stderr. -/
inductive ExecResult where
  | startFailure
  | exited (code : Nat) (stdout : String) (stderr : String)
deriving DecidableEq

/-- The error value surfaced by `cmd.Run` / `cmd.Output` /
`cmd.CombinedOutput`: `none` is a nil error (started and exited 0). -/
inductive ExecError where
  | startError
  | exitError (code : Nat)
deriving DecidableEq

/-- Error result of a subprocess: non-nil exactly on a start failure or
a non-zero exit code. -/
def execErr (r : ExecResult) : Option ExecError :=
  match r with
  | .startFailure => some .startError
  | .exited code _ _ => if code = 0 then none else some (.exitError code)

/-- Stdout captured by `cmd.Output`: empty on a start failure, the
captured stream otherwise (also when the exit code is non-zero). -/
def execStdout (r : ExecResult) : String :=
  match r with
  | .startFailure => ""
  | .exited _ out _ => out

/-- Stderr captured by `cmd.CombinedOutput`. -/
def execStderr (r : ExecResult) : String :=
  match r with
  | .startFailure => ""
  | .exited _ _ err => err

/-- Embedding of `parseEnv`: `newEnv := os.Environ()`, then append `key + "=" + value`
for every override.  `osEnviron` models `os.Environ()` (the full
inherited process environment, as `NAME=VALUE` strings); the overrides
are a list of key/value pairs in Go's (arbitrary) map iteration order. -/
def parseEnv (osEnviron : List String) (env : List (String × String)) : List String :=
  env.foldl (fun newEnv kv => newEnv ++ [kv.1 ++ "=" ++ kv.2]) osEnviron

/-- The `cmd.Dir` / `cmd.Env` assignments common to `Run`, `Output` and
`CombinedOutput`. -/
def configure (osEnviron : List String) (cmd : Cmd) (workDir : String)
    (env : List (String × String)) : Cmd :=
  { cmd with dir := some workDir, env := some (parseEnv osEnviron env) }

/-- Embedding of `Run`: configure the command, execute it (`exec` gives the behaviour
of the configured command), return the error. -/
def Run (osEnviron : List String) (exec : Cmd → ExecResult) (cmd : Cmd)
    (workDir : String) (env : List (String × String)) : Option ExecError :=
  execErr (exec (configure osEnviron cmd workDir env))

/-- Embedding of `Output`: configure the command, execute it, return the captured
stdout as a string together with the error. -/
def Output (osEnviron : List String) (exec : Cmd → ExecResult) (cmd : Cmd)
    (workDir : String) (env : List (String × String)) : String × Option ExecError :=
  let r := exec (configure osEnviron cmd workDir env)
  (execStdout r, execErr r)

/-- Embedding of `CombinedOutput`: configure the command, execute it, return the
combined output (the interleaving of the two streams is abstracted as
stdout followed by stderr) together with the error. -/
def CombinedOutput (osEnviron : List String) (exec : Cmd → ExecResult) (cmd : Cmd)
    (workDir : String) (env : List (String × String)) : String × Option ExecError :=
  let r := exec (configure osEnviron cmd workDir env)
  (execStdout r ++ execStderr r, execErr r)

/-- Matching step `dropKey ks es`: when the entry `es` is of the form
`ks ++ '=' :: v`, return `some v`, else `none`.  This is the usual
matching step of environment resolution (`getenv`): an entry binds the
name `ks` when it starts with `ks` followed by `=`. -/
def dropKey : List Char → List Char → Option (List Char)
  | [], es =>
    match es with
    | c :: rest => if c = '=' then some rest else none
    | [] => none
  | _ :: _, [] => none
  | k :: ks, e :: es => if k = e then dropKey ks es else none

/-- OS environment resolution over a `NAME=VALUE` entry list: the value
of the LAST entry binding the name wins (last-wins, the standard
behaviour for the duplicated entries `exec` can produce). -/
def resolveEnv (entries : List String) (name : String) : Option (List Char) :=
  (entries.filterMap (fun e => dropKey name.data e.data)).getLast?

/-! ## Helper lemmas -/

lemma take_set_self {α : Type} (a : α) : ∀ (l : List α) (n : Nat), (l.set n a).take n = l.take n := by
  intro l
  induction l with
  | nil => intro n; simp
  | cons b t ih =>
    intro n
    cases n with
    | zero => simp
    | succ m => simp [List.set_cons_succ, List.take_succ_cons, ih m]

lemma filterLoop_invariant (orig : List String) :
    ∀ (fuel : Nat) (arr : List String) (i n : Nat),
      orig.length - i ≤ fuel →
      arr.length = orig.length →
      n ≤ i →
      arr.take n = (orig.take i).filter (fun l => l ≠ "") →
      (∀ j, i ≤ j → arr[j]? = orig[j]?) →
      (filterLoop fuel arr i n).1.take (filterLoop fuel arr i n).2
        = orig.filter (fun l => l ≠ "") := by
  intro fuel
  induction fuel with
  | zero =>
    intro arr i n hfuel hlen hni htake _
    have hi : orig.length ≤ i := by omega
    rw [filterLoop]
    rw [List.take_of_length_le hi] at htake
    exact htake
  | succ fuel ih =>
    intro arr i n hfuel hlen hni htake hagree
    rw [filterLoop]
    by_cases h : i < arr.length
    · rw [dif_pos h]
      have hio : i < orig.length := hlen ▸ h
      have hgi : arr[i]? = orig[i]? := hagree i (Nat.le_refl i)
      have harr : arr[i]? = some (arr.get ⟨i, h⟩) := List.getElem?_eq_getElem h
      have horig : orig[i]? = some (arr.get ⟨i, h⟩) := by rw [← hgi]; exact harr
      by_cases hline : arr.get ⟨i, h⟩ ≠ ""
      · rw [if_pos hline]
        apply ih
        · omega
        · simpa using hlen
        · omega
        · -- take (n+1) of set
          have hn : n < arr.length := by omega
          rw [List.take_succ, List.take_succ]
          rw [take_set_self]
          rw [htake, horig]
          have hset : (arr.set n (arr.get ⟨i, h⟩))[n]? = some (arr.get ⟨i, h⟩) := by
            simp [List.getElem?_set_self, hn]
          rw [hset]
          have hA : arr[i] ≠ "" := hline
          simp [List.filter_append, List.filter, hA]
        · intro j hj
          have hnj : n ≠ j := by omega
          rw [List.getElem?_set_ne hnj]
          exact hagree j (by omega)
      · rw [if_neg hline]
        apply ih
        · omega
        · exact hlen
        · omega
        · rw [List.take_succ, horig]
          have : arr.get ⟨i, h⟩ = "" := by
            by_contra hc
            exact hline hc
          rw [htake]
          have hA : arr[i] = "" := this
          simp [List.filter_append, List.filter, hA]
        · intro j hj
          exact hagree j (by omega)
    · rw [dif_neg h]
      have hi : orig.length ≤ i := by omega
      rw [List.take_of_length_le hi] at htake
      exact htake

lemma filterLoop_eq_filter (lines : List String) :
    (filterLoop lines.length lines 0 0).1.take (filterLoop lines.length lines 0 0).2
      = lines.filter (fun l => l ≠ "") := by
  apply filterLoop_invariant lines lines.length lines 0 0
  · omega
  · rfl
  · exact Nat.le_refl 0
  · simp
  · intro j _; rfl

end Check
namespace Check

/-! ## Claim theorems -/

/-- The file system of the `CopyFile` counterexample: source `/s` holds
`"ab"`, destination `/d` already holds the longer `"0123456789"`. -/
def copyFixtureFS : FS :=
  fun p =>
    if p = "/s" then some (.file "ab")
    else if p = "/d" then some (.file "0123456789") else none

/-- C1: the claim says that after a successful `CopyFile(dst, src)` the
content of `dst` equals the source bytes exactly, even when `dst`
pre-existed with longer content.  The code opens `dst` with
`O_CREATE|O_WRONLY` but WITHOUT `O_TRUNC`, so the old bytes past the end
of the source survive: copying a 2-byte source over a 10-byte
destination succeeds and leaves `"ab23456789"`, not `"ab"`.  This
contradicts the claim (and the function's own comment "Overwrites dst"),
so it is a bug in the code. -/
theorem c1_copyFile_keeps_old_tail :
    ∃ fs2, CopyFile copyFixtureFS "/d" "/s" = .ok fs2 ∧
      fs2 "/d" = some (.file "ab23456789") ∧ "ab23456789" ≠ "ab" :=
  ⟨updateFS copyFixtureFS "/d" (.file (writeFrom0 "0123456789" "ab")),
    rfl, by decide, by decide⟩

/-- C2: for every readable file, `ReadLines` returns the newline-split
content with all empty strings removed, in order, together with a nil
error; in particular content `"a\n\nb\n"` yields exactly `["a", "b"]`,
and content all of whose newline-split lines are blank (in particular
the empty file, whose split is `[""]`) yields `[]`. -/
theorem c2_readLines_splits_and_filters (fs : FS) (p : String) (c : String)
    (h : fs p = some (.file c)) :
    ReadLines fs p = .ok ((splitLines c).filter (fun l => l ≠ "")) ∧
    (c = "a\n\nb\n" → ReadLines fs p = .ok ["a", "b"]) ∧
    ((splitLines c).all (fun l => l = "") → ReadLines fs p = .ok []) := by
  have hmain : ReadLines fs p = .ok ((splitLines c).filter (fun l => l ≠ "")) := by
    unfold ReadLines ReadFile
    rw [h]
    simp only [filterLoop_eq_filter]
  refine ⟨hmain, ?_, ?_⟩
  · intro hc
    subst hc
    rw [hmain]
    rfl
  · intro hall
    rw [hmain]
    have hnil : (splitLines c).filter (fun l => l ≠ "") = [] := by
      rw [List.filter_eq_nil_iff]
      intro a ha
      have := List.all_eq_true.mp hall a ha
      simpa using this
    rw [hnil]

/-- Witness for C2 at a concrete file system and content. -/
theorem c2_witness :
    ReadLines (fun p => if p = "f" then some (.file "a\n\nb\n") else none) "f"
      = .ok ["a", "b"] :=
  (c2_readLines_splits_and_filters _ "f" "a\n\nb\n" rfl).2.1 rfl

/-- C4: `FileExists` is true exactly on a successful stat of a
non-directory, `DirExists` exactly on a successful stat of a directory;
every stat failure yields `false` in both (no error surfaces), a
directory fails `FileExists` and a regular file fails `DirExists`. -/
theorem c4_fileExists_dirExists (fs : FS) (p : String) :
    (FileExists fs p = true ↔ ∃ info, Stat fs p = some info ∧ info.isDir = false) ∧
    (DirExists fs p = true ↔ ∃ info, Stat fs p = some info ∧ info.isDir = true) ∧
    (Stat fs p = none → FileExists fs p = false ∧ DirExists fs p = false) ∧
    (fs p = some .dir → FileExists fs p = false) ∧
    (∀ c, fs p = some (.file c) → DirExists fs p = false) := by
  unfold FileExists DirExists Stat
  cases hfs : fs p with
  | none => simp
  | some node => cases node <;> simp

/-- A concrete fixture for the `FileExists` / `DirExists` witness: one
directory, one regular file, everything else absent. -/
def statFixtureFS : FS :=
  fun p =>
    if p = "/dir" then some .dir
    else if p = "/file" then some (.file "x") else none

/-- Witness for C4: a directory is not a file, a file is not a
directory, a missing path is neither. -/
theorem c4_witness :
    FileExists statFixtureFS "/dir" = false ∧
    DirExists statFixtureFS "/file" = false ∧
    FileExists statFixtureFS "/absent" = false :=
  ⟨(c4_fileExists_dirExists statFixtureFS "/dir").2.2.2.1 rfl,
   (c4_fileExists_dirExists statFixtureFS "/file").2.2.2.2 "x" rfl,
   ((c4_fileExists_dirExists statFixtureFS "/absent").2.2.1 rfl).1⟩

/-- C5: `NoError` returns `true` and logs nothing on a nil error, and on
a non-nil error returns `false` after logging exactly one error-level
entry whose message is the (empty-defaulted) caller message — so it
contains the caller's message as a substring — and whose attached error
is the given one; the returned boolean is exactly "the error is nil". -/
theorem c5_noError_spec (err : Option String) (msg : String) :
    (NoError err msg).1 = err.isNone ∧
    (err = none → (NoError err msg).2 = []) ∧
    (∀ e, err = some e →
      (NoError err msg).2
        = [⟨.errorLevel, if msg = "" then "Something bad happended" else msg, e⟩] ∧
      msg.data <:+: (if msg = "" then "Something bad happended" else msg).data) := by
  cases err with
  | none => simp [NoError]
  | some e =>
    refine ⟨by simp [NoError], ?_, ?_⟩
    · intro hc
      cases hc
    intro e' he
    cases he
    refine ⟨by simp [NoError], ?_⟩
    by_cases hm : msg = ""
    · simp [hm]
    · simp [hm, List.infix_refl]

/-- Witness for C5 on a concrete non-nil error. -/
theorem c5_witness :
    (NoError (some "bad") "m").2
      = [⟨.errorLevel, if "m" = "" then "Something bad happended" else "m", "bad"⟩] ∧
    ("m" : String).data <:+: (if ("m" : String) = "" then "Something bad happended" else "m").data :=
  (c5_noError_spec (some "bad") "m").2.2 "bad" rfl

/-- C9: the in-place filtering loop of `ReadLines` (re-slicing the split
result to length zero and appending each non-empty element back into the
shared backing array) computes exactly the naive specification "filter
the empty strings out of the newline-split list", element for element
and in order. -/
theorem c9_filterLoop_refines_naive (lines : List String) :
    (filterLoop lines.length lines 0 0).1.take (filterLoop lines.length lines 0 0).2
      = naiveFilterSpec lines :=
  filterLoop_eq_filter lines

/-- C10: `NoError`, like `Panic`, substitutes the fixed default message
string "Something bad happended" when the caller's message is empty: on
any non-nil error with empty message, each logs exactly that default
string. -/
theorem c10_noError_default_message (e : String) :
    (NoError (some e) "").2.map LogEntry.msg = ["Something bad happended"] ∧
    (Panic (some e) "").2.map LogEntry.msg = ["Something bad happended"] :=
  ⟨rfl, rfl⟩

end Check
namespace Check

/-! ## Environment merge (C3) -/

/-- Matching the key against its own entry succeeds and yields the
value. -/
lemma dropKey_self : ∀ (ks v : List Char), dropKey ks (ks ++ '=' :: v) = some v := by
  intro ks
  induction ks with
  | nil => intro v; simp [dropKey]
  | cons k t ih => intro v; simp [dropKey, ih]

/-- Matching a DIFFERENT key's entry fails, provided neither name
contains `'='`. -/
lemma dropKey_ne : ∀ (ns ks v : List Char), '=' ∉ ns → '=' ∉ ks → ks ≠ ns →
    dropKey ns (ks ++ '=' :: v) = none := by
  intro ns
  induction ns with
  | nil =>
    intro ks v _ hks hne
    cases ks with
    | nil => exact absurd rfl hne
    | cons k t =>
      have : k ≠ '=' := fun h => hks (h ▸ List.mem_cons_self k t)
      simp [dropKey, this]
  | cons n nt ih =>
    intro ks v hns hks hne
    cases ks with
    | nil =>
      have : n ≠ '=' := fun h => hns (h ▸ List.mem_cons_self n nt)
      simp [dropKey, this]
    | cons k t =>
      by_cases hk : n = k
      · subst hk
        have h1 : '=' ∉ nt := fun h => hns (List.mem_cons_of_mem _ h)
        have h2 : '=' ∉ t := fun h => hks (List.mem_cons_of_mem _ h)
        have h3 : t ≠ nt := fun h => hne (by rw [h])
        simp [dropKey, ih t v h1 h2 h3]
      · simp [dropKey, hk]

/-- Appending strings appends the underlying character lists. -/
lemma data_append (s t : String) : (s ++ t).data = s.data ++ t.data := by
  cases s
  cases t
  rfl

/-- The character list of a `NAME=VALUE` entry. -/
lemma entry_data (k v : String) : (k ++ "=" ++ v).data = k.data ++ '=' :: v.data := by
  rw [data_append, data_append]
  show k.data ++ ['='] ++ v.data = _
  simp

/-- Closed form of `parseEnv`: the inherited environment followed by one
`NAME=VALUE` entry per override, in override order. -/
lemma parseEnv_eq_append : ∀ (ov : List (String × String)) (inh : List String),
    parseEnv inh ov = inh ++ ov.map (fun kv => kv.1 ++ "=" ++ kv.2) := by
  intro ov
  induction ov with
  | nil => intro inh; simp [parseEnv]
  | cons kv t ih =>
    intro inh
    show parseEnv (inh ++ [kv.1 ++ "=" ++ kv.2]) t = _
    rw [ih]
    simp

end Check

namespace Check

/-- Two strings with the same character list are equal. -/
lemma string_data_eq (s t : String) (h : s.data = t.data) : s = t := by
  cases s
  cases t
  exact congrArg String.mk h

/-- C3: every override list passed to `Run`, `Output` or
`CombinedOutput` yields a child environment (the `cmd.Env` they all set
via `configure`/`parseEnv`) equal to the full inherited process
environment followed by one `NAME=VALUE` entry per override; hence OS
last-wins resolution gives an overridden name its override's value,
whatever the inherited entries bind it to, and an empty override list
leaves the environment exactly the inherited one. -/
theorem c3_env_merge (osEnviron : List String) (cmd : Cmd) (workDir : String)
    (ov ov1 ov2 : List (String × String)) (name v : String)
    (hname : '=' ∉ name.data)
    (hov2 : ∀ kv ∈ ov2, '=' ∉ kv.1.data ∧ kv.1 ≠ name) :
    (configure osEnviron cmd workDir ov).env = some (parseEnv osEnviron ov) ∧
    parseEnv osEnviron ov = osEnviron ++ ov.map (fun kv => kv.1 ++ "=" ++ kv.2) ∧
    parseEnv osEnviron [] = osEnviron ∧
    resolveEnv (parseEnv osEnviron (ov1 ++ (name, v) :: ov2)) name = some v.data := by
  refine ⟨rfl, parseEnv_eq_append ov osEnviron, by simp [parseEnv], ?_⟩
  rw [parseEnv_eq_append]
  unfold resolveEnv
  have hself : dropKey name.data ((name ++ "=" ++ v).data) = some v.data := by
    rw [entry_data]
    exact dropKey_self name.data v.data
  have hnone : List.filterMap (fun e => dropKey name.data e.data)
      (ov2.map (fun kv => kv.1 ++ "=" ++ kv.2)) = [] := by
    rw [List.filterMap_eq_nil_iff]
    intro a ha
    obtain ⟨kv, hkv, rfl⟩ := List.mem_map.mp ha
    rw [entry_data]
    refine dropKey_ne name.data kv.1.data kv.2.data hname (hov2 kv hkv).1 ?_
    intro h
    exact (hov2 kv hkv).2 (string_data_eq _ _ h)
  rw [List.map_append, List.map_cons]
  rw [List.filterMap_append, List.filterMap_append]
  simp only [List.filterMap_cons, hself, hnone]
  rw [← List.append_assoc]
  exact List.getLast?_concat ..

/-- Witness for C3: overriding the inherited `FOO=old` with
`FOO=bar` resolves to `bar`; an empty override list changes nothing. -/
theorem c3_witness :
    resolveEnv (parseEnv ["HOME=/root", "FOO=old"] [("FOO", "bar")]) "FOO"
      = some ("bar".data) ∧
    parseEnv ["HOME=/root", "FOO=old"] [] = ["HOME=/root", "FOO=old"] :=
  ⟨(c3_env_merge ["HOME=/root", "FOO=old"] ⟨none, none⟩ "/w" [] [] []
      "FOO" "bar" (by decide) (by simp)).2.2.2,
   (c3_env_merge ["HOME=/root", "FOO=old"] ⟨none, none⟩ "/w" [] [] []
      "FOO" "bar" (by decide) (by simp)).2.2.1⟩

/-- Counterexample for C6 as stated: on a non-nil error the single
entry written by `Panic` carries the logrus PANIC level, which is
distinct from (and strictly above) the FATAL level the claim names. -/
theorem c6_counterexample :
    (Panic (some "boom") "").2.map LogEntry.level = [Level.panicLevel] ∧
    Level.panicLevel ≠ Level.fatalLevel :=
  ⟨rfl, by decide⟩

/-- C6 (amended): on a nil error `Panic` is a no-op that returns
normally and logs nothing; on a non-nil error it writes exactly one
PANIC-level entry carrying the message — defaulted to
"Something bad happended" when the supplied message is empty — together
with the error text, and then panics, aborting the current control flow
instead of returning. -/
theorem c6_panic_spec (err : Option String) (msg : String) :
    (err = none → Panic err msg = (.returned, [])) ∧
    (∀ e, err = some e →
      (Panic err msg).1 = .panicked ∧
      (Panic err msg).2
        = [⟨.panicLevel, if msg = "" then "Something bad happended" else msg, e⟩]) := by
  cases err with
  | none => exact ⟨fun _ => rfl, fun e he => nomatch he⟩

  | some e =>
    refine ⟨(fun hc => nomatch hc), ?_⟩
    intro e' he
    cases he
    by_cases hm : msg = ""
    · simp [Panic, hm]
    · simp [Panic, hm]

/-- Witness for C6 on a concrete non-nil error with empty message. -/
theorem c6_witness :
    (Panic (some "boom") "").1 = .panicked ∧
    (Panic (some "boom") "").2
      = [⟨.panicLevel, if "" = "" then "Something bad happended" else "", "boom"⟩] :=
  (c6_panic_spec (some "boom") "").2 "boom" rfl

/-- C7: when no readable regular file is at the path, `ReadLines`
surfaces an error rather than succeeding with an empty sequence;
conversely success with a nil error implies the file was readable. -/
theorem c7_readLines_error (fs : FS) (p : String) :
    ((∀ c, fs p ≠ some (.file c)) → ReadLines fs p = .error ()) ∧
    (∀ l, ReadLines fs p = .ok l → ∃ c, fs p = some (.file c)) := by
  constructor
  · intro h
    unfold ReadLines ReadFile
    cases hfs : fs p with
    | none => rfl
    | some node =>
      cases node with
      | file c => exact absurd hfs (h c)
      | dir => rfl
  · intro l hl
    unfold ReadLines ReadFile at hl
    cases hfs : fs p with
    | none => rw [hfs] at hl; cases hl
    | some node =>
      cases node with
      | file c => exact ⟨c, rfl⟩
      | dir => rw [hfs] at hl; cases hl

/-- Witness for C7: a nonexistent file produces a read error. -/
theorem c7_witness :
    ReadLines (fun _ => (none : Option Node)) "missing" = .error () :=
  (c7_readLines_error (fun _ => none) "missing").1 (fun _ h => Option.noConfusion h)

/-- C8: `Output` surfaces a non-nil error exactly when the subprocess
fails to start or exits non-zero; whenever the process runs it returns
the captured stdout — the full stdout with a nil error on exit 0, the
captured (partial) stdout alongside the non-nil error on a non-zero
exit — and a start failure yields an empty string with the start
error. -/
theorem c8_output_spec (osEnviron : List String) (exec : Cmd → ExecResult)
    (cmd : Cmd) (workDir : String) (env : List (String × String)) :
    ((Output osEnviron exec cmd workDir env).2 = none ↔
      ∃ out errS, exec (configure osEnviron cmd workDir env) = .exited 0 out errS) ∧
    (∀ code out errS, exec (configure osEnviron cmd workDir env) = .exited code out errS →
      (Output osEnviron exec cmd workDir env).1 = out ∧
      ((Output osEnviron exec cmd workDir env).2 = none ↔ code = 0)) ∧
    (exec (configure osEnviron cmd workDir env) = .startFailure →
      Output osEnviron exec cmd workDir env = ("", some .startError)) := by
  unfold Output
  cases hr : exec (configure osEnviron cmd workDir env) with
  | startFailure =>
    refine ⟨(by simp [execErr]), ?_, fun _ => rfl⟩
    intro code out errS hc
    cases hc
  | exited code out errS =>
    refine ⟨?_, ?_, fun hc => nomatch hc⟩
    · by_cases h0 : code = 0
      · subst h0
        simp [execErr]
      · simp [execErr, h0]
    · intro code' out' errS' hc
      injection hc with h1 h2 h3
      subst h1
      subst h2
      subst h3
      by_cases h0 : code = 0
      · subst h0
        simp [execErr, execStdout]
      · simp [execErr, execStdout, h0]

/-- Witness for C8: a command that prints "hello" and exits 0 yields
`("hello", nil)`. -/
theorem c8_witness :
    (Output [] (fun _ => .exited 0 "hello" "") ⟨none, none⟩ "/w" []).1 = "hello" ∧
    ((Output [] (fun _ => .exited 0 "hello" "") ⟨none, none⟩ "/w" []).2 = none ↔ 0 = 0) :=
  (c8_output_spec [] (fun _ => .exited 0 "hello" "") ⟨none, none⟩ "/w" []).2.1 0 "hello" "" rfl

end Check
